import Mathlib

/-!
Shallow embedding of `src/quasarr/downloads/linkcrypters/al.py` (Quasarr).

Python strings are modelled as `List Char` (or as `List Nat` of Unicode code
points where byte-level decoding is involved); byte buffers are `List Nat`
with values 0..255.  Fallible Python code (raised exceptions) is modelled
with `Option` / `Except`.  The AES primitive and HTTP transport are external
libraries and are parameters of the embedding; everything else is translated
from the source.
-/

namespace Quasarr

/-! ### KeyTransform (`CNL.__init__`, al.py lines 42-47)

`k_list[15], k_list[16] = k_list[16], k_list[15]` simultaneously swaps the
characters at 0-indexed positions 15 and 16; the right-hand side is read from
the original list before either assignment happens. -/

/-- Swap of positions 15 and 16, translated from al.py line 46.  The `getD`
default is irrelevant whenever the length exceeds 16. -/
def keySwap (l : List Char) : List Char :=
  (l.set 15 (l.getD 16 ' ')).set 16 (l.getD 15 ' ')

/-- Lines 43-47 of al.py: the length guard (`raise ValueError` when
`len(k_list) <= 16`, modelled as `none`) followed by the swap. -/
def keyTransform (jk : List Char) : Option (List Char) :=
  if jk.length ≤ 16 then none else some (keySwap jk)

/-! ### ContainerDecoder post-processing (`CNL.decrypt`, al.py lines 75-92)

`decrypt` takes the AES-decrypted byte buffer `raw_plain`, removes the bytes
`0x00` and `0x08`, decodes the remainder as UTF-8 (strict mode), splits the
resulting text with Python's `str.splitlines()` and keeps the lines whose
`str.strip()` is non-empty. -/

/-- Model of `bytes.replace(b, b"")` for a single-byte pattern `b`: every
occurrence of the byte is removed. -/
def removeByte (b : Nat) (l : List Nat) : List Nat :=
  l.filter (fun a => a != b)

/-- UTF-8 continuation byte test (`0x80..0xBF`). -/
def utf8Cont (b : Nat) : Bool :=
  decide (0x80 ≤ b) && decide (b < 0xC0)

/-- Strict UTF-8 decoding of a byte list into Unicode code points, as
performed by Python's `bytes.decode("utf-8")`: rejects stray continuation
bytes, overlong encodings, surrogates and code points above `0x10FFFF`.
The first argument is fuel; `utf8Decode` supplies the list length, which is
enough because every decoded code point consumes at least one byte. -/
def utf8DecodeAux : Nat → List Nat → Option (List Nat)
  | _, [] => some []
  | 0, _ :: _ => none
  | f + 1, b :: rest =>
    if b < 0x80 then
      (utf8DecodeAux f rest).map (fun cs => b :: cs)
    else if b < 0xC2 then none
    else if b < 0xE0 then
      match rest with
      | c1 :: r =>
        if utf8Cont c1 then
          (utf8DecodeAux f r).map (fun cs => ((b - 0xC0) * 0x40 + (c1 - 0x80)) :: cs)
        else none
      | [] => none
    else if b < 0xF0 then
      match rest with
      | c1 :: c2 :: r =>
        if utf8Cont c1 && utf8Cont c2 then
          let cp := (b - 0xE0) * 0x1000 + (c1 - 0x80) * 0x40 + (c2 - 0x80)
          if cp < 0x800 || (decide (0xD800 ≤ cp) && decide (cp < 0xE000)) then none
          else (utf8DecodeAux f r).map (fun cs => cp :: cs)
        else none
      | _ => none
    else if b < 0xF5 then
      match rest with
      | c1 :: c2 :: c3 :: r =>
        if utf8Cont c1 && utf8Cont c2 && utf8Cont c3 then
          let cp := (b - 0xF0) * 0x40000 + (c1 - 0x80) * 0x1000 +
            (c2 - 0x80) * 0x40 + (c3 - 0x80)
          if cp < 0x10000 || decide (0x110000 ≤ cp) then none
          else (utf8DecodeAux f r).map (fun cs => cp :: cs)
        else none
      | _ => none
    else none

/-- Model of `bytes.decode("utf-8")`: `none` is the raised `UnicodeDecodeError`
(which al.py line 88 re-raises as `ValueError`). -/
def utf8Decode (l : List Nat) : Option (List Nat) :=
  utf8DecodeAux l.length l

/-- The line-boundary code points of Python's `str.splitlines`:
LF, VT, FF, CR, FS, GS, RS, NEL, LINE SEPARATOR, PARAGRAPH SEPARATOR
(CR LF is additionally consumed as a single boundary by `splitlinesAux`). -/
def lineBoundary (c : Nat) : Bool :=
  c == 0x0A || c == 0x0B || c == 0x0C || c == 0x0D || c == 0x1C ||
  c == 0x1D || c == 0x1E || c == 0x85 || c == 0x2028 || c == 0x2029

/-- Worker for `splitlinesPy`; `cur` holds the current line reversed. -/
def splitlinesAux (cur : List Nat) : List Nat → List (List Nat)
  | [] => if cur.isEmpty then [] else [cur.reverse]
  | 0x0D :: 0x0A :: rest => cur.reverse :: splitlinesAux [] rest
  | c :: rest =>
    if lineBoundary c then cur.reverse :: splitlinesAux [] rest
    else splitlinesAux (c :: cur) rest

/-- Model of Python's `str.splitlines()` on a code-point sequence. -/
def splitlinesPy (l : List Nat) : List (List Nat) :=
  splitlinesAux [] l

/-- The code points removed by Python's `str.strip()` (CPython's
`Py_UNICODE_ISSPACE` table). -/
def pyWhitespace (c : Nat) : Bool :=
  (decide (0x09 ≤ c) && decide (c ≤ 0x0D)) || c == 0x1C || c == 0x1D ||
  c == 0x1E || c == 0x1F || c == 0x20 || c == 0x85 || c == 0xA0 ||
  c == 0x1680 || (decide (0x2000 ≤ c) && decide (c ≤ 0x200A)) ||
  c == 0x2028 || c == 0x2029 || c == 0x202F || c == 0x205F || c == 0x3000

/-- Model of Python's `str.strip()`: drop leading and trailing whitespace. -/
def pyStrip (l : List Nat) : List Nat :=
  ((l.dropWhile pyWhitespace).reverse.dropWhile pyWhitespace).reverse

/-- Lines 81-92 of al.py applied to the already-decrypted buffer `raw_plain`:
`raw_plain.replace(b"\x00", b"").replace(b"\x08", b"")`, UTF-8 decoding
(`none` = the raised `ValueError`), and
`[line for line in text.splitlines() if line.strip()]`. -/
def decryptPost (raw_plain : List Nat) : Option (List (List Nat)) :=
  let cleaned := removeByte 0x08 (removeByte 0x00 raw_plain)
  match utf8Decode cleaned with
  | none => none
  | some text =>
    some ((splitlinesPy text).filter (fun line => !(pyStrip line).isEmpty))

/-- Worker for `splitSpecLF`: splits only at LF and CR LF. -/
def splitSpecAux (cur : List Nat) : List Nat → List (List Nat)
  | [] => if cur.isEmpty then [] else [cur.reverse]
  | 0x0D :: 0x0A :: rest => cur.reverse :: splitSpecAux [] rest
  | 0x0A :: rest => cur.reverse :: splitSpecAux [] rest
  | c :: rest => splitSpecAux (c :: cur) rest

/-- Splitting on line boundaries CRLF or LF only, as the specification words
describe it. -/
def splitSpecLF (l : List Nat) : List (List Nat) :=
  splitSpecAux [] l

/-- The ContainerDecoder post-processing exactly as the specification words
state it: remove every occurrence of bytes `0x00` and `0x08`, decode the
remaining bytes as UTF-8, split the text on line boundaries (CRLF or LF),
discard lines that are empty or contain only whitespace, and return the
remaining lines in order. -/
def specPost (raw : List Nat) : Option (List (List Nat)) :=
  match utf8Decode (raw.filter (fun b => b != 0x00 && b != 0x08)) with
  | none => none
  | some text =>
    some ((splitSpecLF text).filter
      (fun line => !(line.isEmpty || line.all pyWhitespace)))

/-- The specification's description of the post-processing, amended at the
line-splitting step: the text is split at every `str.splitlines` boundary
(LF, CR, CRLF, and the further boundary code points 0x0B, 0x0C, 0x1C, 0x1D,
0x1E, 0x85, 0x2028, 0x2029), not just CRLF/LF. -/
def specPostAmended (raw : List Nat) : Option (List (List Nat)) :=
  match utf8Decode (raw.filter (fun b => b != 0x00 && b != 0x08)) with
  | none => none
  | some text =>
    some ((splitlinesPy text).filter
      (fun line => !(line.isEmpty || line.all pyWhitespace)))

/-! ### BatchDecryptor (`decrypt_content`, al.py lines 95-136)

A content item is `{"hoster": ..., "cnl": {"jk": ..., "crypted": ...}}` with
every field possibly absent (`dict.get`).  The call `CNL(item).decrypt()` is a
parameter `dec` of the embedding: its AES core is the external Cryptodome
library; `Except.error` models any exception raised by it, which the loop at
lines 127-134 catches.  Diagnostics model the `info(...)` log calls. -/

/-- The nested `cnl` dictionary of a content item. -/
structure CnlBlock where
  jk : Option (List Char)
  crypted : Option (List Char)
  deriving DecidableEq

/-- One element of `content_items`. -/
structure ContentItem where
  hoster : Option (List Char)
  cnl : Option CnlBlock
  deriving DecidableEq

/-- Python truthiness of an optional string: `None` and `""` are falsy. -/
def optStrTruthy : Option (List Char) → Bool
  | none => false
  | some s => !s.isEmpty

/-- Worker for `listContainsSub`. -/
def listStartsWith : List Char → List Char → Bool
  | [], _ => true
  | _ :: _, [] => false
  | a :: as, b :: bs => a == b && listStartsWith as bs

/-- Model of Python's `needle in hay` substring test on strings. -/
def listContainsSub (needle : List Char) : List Char → Bool
  | [] => needle.isEmpty
  | b :: rest => listStartsWith needle (b :: rest) || listContainsSub needle rest

/-- Lines 103-113 of al.py: the mirror-filtering phase of `decrypt_content`.
Returns the list the per-item loop will run over, and whether the
zero-match fallback diagnostic (`info(f"No items found for mirror=...")`,
line 109) was emitted. -/
def filterContent (content_items : List ContentItem) (mirror : Option (List Char)) :
    List ContentItem × Bool :=
  let filtered1 :=
    if optStrTruthy mirror then
      content_items.filter
        (fun item => listContainsSub (mirror.getD []) (item.hoster.getD []))
    else []
  let fallback := optStrTruthy mirror && filtered1.isEmpty
  let filtered2 := if fallback then content_items else filtered1
  let filtered3 := if !optStrTruthy mirror then content_items else filtered2
  (filtered3, fallback)

/-- Per-item diagnostic records of `decrypt_content`: the `info` log lines at
al.py line 124 (missing fields) and line 134 (caught exception), each carrying
the item's index and hoster label. -/
inductive ItemDiag (ε : Type) where
  | missingFields : Nat → List Char → ItemDiag ε
  | decryptFailed : Nat → List Char → ε → ItemDiag ε
  deriving DecidableEq

/-- True when the item has truthy `jk` and `crypted` fields (the negation of
the skip test `if not jnk or not crypted` at al.py line 123). -/
def fieldsPresent (item : ContentItem) : Bool :=
  optStrTruthy (item.cnl.getD ⟨none, none⟩).jk &&
    optStrTruthy (item.cnl.getD ⟨none, none⟩).crypted

/-- Lines 115-136 of al.py: the per-item loop over an enumerated item list.
`dec item` models `CNL(item).decrypt()`; its error is caught and recorded,
never propagated.  Returns the accumulated `decrypted_links` and the
diagnostics in emission order. -/
def decryptLoopAux (dec : ContentItem → Except ε (List (List Char))) :
    List (Nat × ContentItem) → List (List Char) × List (ItemDiag ε)
  | [] => ([], [])
  | (idx, item) :: rest =>
    let hosterName := item.hoster.getD "<unknown>".toList
    if !fieldsPresent item then
      let r := decryptLoopAux dec rest
      (r.1, .missingFields idx hosterName :: r.2)
    else
      match dec item with
      | .ok urls =>
        let r := decryptLoopAux dec rest
        (urls ++ r.1, r.2)
      | .error e =>
        let r := decryptLoopAux dec rest
        (r.1, .decryptFailed idx hosterName e :: r.2)

/-- The item loop of `decrypt_content` run over a plain item list
(`for idx, item in enumerate(filtered)`). -/
def decryptItems (dec : ContentItem → Except ε (List (List Char)))
    (items : List ContentItem) : List (List Char) × List (ItemDiag ε) :=
  decryptLoopAux dec items.enum

/-- The whole of `decrypt_content` (al.py lines 95-136): filtering phase, then
the per-item loop.  The final component is the fallback-diagnostic flag. -/
def decrypt_content (dec : ContentItem → Except ε (List (List Char)))
    (content_items : List ContentItem) (mirror : Option (List Char)) :
    List (List Char) × List (ItemDiag ε) × Bool :=
  let fc := filterContent content_items mirror
  let r := decryptItems dec fc.1
  (r.1, r.2, fc.2)

/-- Claim-side helper: the URL list an item contributes to the result —
its decrypted URLs when its fields are present and `dec` succeeds,
nothing otherwise. -/
def itemSuccessUrls (dec : ContentItem → Except ε (List (List Char)))
    (item : ContentItem) : List (List Char) :=
  if fieldsPresent item then
    match dec item with
    | .ok urls => urls
    | .error _ => []
  else []

/-! ### Pixel difference (`calculate_pixel_based_difference`, al.py 139-152)

A normalized image is a 3-channel (RGB) pixel grid; channel samples are the
byte values PIL stores, here modelled as `Nat` (only equality and absolute
difference of samples matter below).  `ImageChops.difference` computes the
per-channel absolute difference and raises when the sizes do not match
(modelled as `none`); `convert("RGB")` is the identity on these already-RGB
images.  `hist[0]`, `hist[256]`, `hist[512]` count the pixels whose R, G, B
difference value is zero.  Python's true division raises
`ZeroDivisionError` when `total_elements = 0` (modelled as `none`); the
result is modelled in `ℚ` (the float computation is a deterministic function
of the two integers `non_zero` and `total_elements`). -/

/-- A normalized 3-channel image. -/
structure NormImage where
  width : Nat
  height : Nat
  px : Nat → Nat → Fin 3 → Nat

/-- `ImageChops.difference`: pointwise per-channel absolute difference;
raises (`none`) when the two sizes differ. -/
def imageDiffAbs (a b : NormImage) : Option NormImage :=
  if a.width = b.width ∧ a.height = b.height then
    some ⟨a.width, a.height,
      fun x y c => max (a.px x y c) (b.px x y c) - min (a.px x y c) (b.px x y c)⟩
  else none

/-- Histogram entry `hist[256 * c]` of the difference image: the number of
pixels whose channel-`c` value is zero. -/
def histZeroAt (d : NormImage) (c : Fin 3) : Nat :=
  ((List.range d.width).map (fun x =>
    ((List.range d.height).filter (fun y => d.px x y c == 0)).length)).sum

/-- Lines 139-152 of al.py.  `none` models the exceptions (size mismatch in
`ImageChops.difference`, or `ZeroDivisionError` for a zero-area image). -/
def calculate_pixel_based_difference (img1 img2 : NormImage) : Option ℚ :=
  match imageDiffAbs img1 img2 with
  | none => none
  | some d =>
    let total_elements := d.width * d.height * 3
    let zero_elements := histZeroAt d 0 + histZeroAt d 1 + histZeroAt d 2
    let non_zero := total_elements - zero_elements
    if total_elements = 0 then none
    else some ((non_zero : ℚ) * 100 / (total_elements : ℚ))

/-! ### Outlier selection and submission (`solve_captcha`, al.py 206-230)

The aggregate-score loop and Python's `max(..., key=lambda x: x[1])` (which
keeps the current element on ties, so the first maximal element wins), and
the tail of `solve_captcha` that submits the selected id and builds the
returned dictionary.  Scores are modelled in `ℚ`; the selection theorems are
generic in the pairwise difference function. -/

/-- Accumulator pass of Python's `max` with a key: a later element replaces
the current best only when its key is strictly greater. -/
def pyMaxAux (best : ι × ℚ) : List (ι × ℚ) → ι × ℚ
  | [] => best
  | y :: ys => pyMaxAux (if best.2 < y.2 then y else best) ys

/-- Python's `max(l, key=lambda x: x[1])`; `none` models the `ValueError`
raised on an empty sequence. -/
def pyMaxSnd : List (ι × ℚ) → Option (ι × ℚ)
  | [] => none
  | x :: xs => some (pyMaxAux x xs)

/-- The inner loop at al.py lines 208-212: `tot` starts at `0.0` and the
candidate at enumeration index `i` is skipped (`if idx_i == idx_j: continue`). -/
def aggFor (diff : α → α → ℚ) (cands : List (ι × α)) (i : Nat) (a : α) : ℚ :=
  cands.enum.foldl (fun tot jq => if i = jq.1 then tot else tot + diff a jq.2.2) 0

/-- Lines 206-213 of al.py: `diffs_pil`, the list pairing each candidate id
with its aggregate difference total, in input order. -/
def buildDiffs (diff : α → α → ℚ) (cands : List (ι × α)) : List (ι × ℚ) :=
  cands.enum.map (fun ip => (ip.2.1, aggFor diff cands ip.1 ip.2.2))

/-- Line 215 of al.py: `max(diffs_pil, key=lambda x: x[1])`. -/
def selectOutlier (diff : α → α → ℚ) (cands : List (ι × α)) : Option (ι × ℚ) :=
  pyMaxSnd (buildDiffs diff cands)

/-- Claim-side aggregate score: the sum of `diff` between candidate `i`
(whose image is `a`) and every other candidate, `Σ diffPercent(i, j)` over
`j ≠ i`. -/
def specAggScore (diff : α → α → ℚ) (cands : List (ι × α)) (i : Nat) (a : α) : ℚ :=
  ((cands.enum.filter (fun jq => !(i == jq.1))).map (fun jq => diff a jq.2.2)).sum

/-- The dictionary `solve_captcha` returns (al.py lines 227-230): the raw
submission response text and the selected id — and nothing else. -/
structure SolveResult (ι : Type) where
  response : List Char
  captcha_id : ι
  deriving DecidableEq

/-- Lines 215-230 of al.py given the computed `diffs_pil`: select by
`max(..., key=lambda x: x[1])` (`none` models the `ValueError` on an empty
list), submit `{"cID": 0, "pC": <selected>, "rT": 2}` — `submitResp id` is
the text body the external fetch capability returns for that submission —
and build the returned dictionary.  The aggregate score only reaches the
`info` log line (truncated to an integer), never the return value. -/
def solveSubmit (submitResp : ι → List Char) (diffs : List (ι × ℚ)) :
    Option (SolveResult ι) :=
  match pyMaxSnd diffs with
  | none => none
  | some p => some ⟨submitResp p.1, p.1⟩

/-! ### Image fetching (`solve_captcha`, al.py lines 176-184)

The loop downloads each candidate image in candidate order; a non-200 status
or an empty body raises `RuntimeError` at once.  The embedding also records
the trace of ids actually fetched, in order, so that "no remaining candidate
is processed" is expressible. -/

/-- Decidable equality for `Except`, so that concrete loop outcomes can be
checked by `decide`. -/
instance {ε α : Type} [DecidableEq ε] [DecidableEq α] : DecidableEq (Except ε α) := by
  intro a b
  cases a <;> cases b
  case error.error e1 e2 =>
    exact if h : e1 = e2 then .isTrue (by rw [h]) else .isFalse (fun hh => by cases hh; exact h rfl)
  case error.ok e1 a2 => exact .isFalse (fun hh => by cases hh)
  case ok.error a1 e2 => exact .isFalse (fun hh => by cases hh)
  case ok.ok a1 a2 =>
    exact if h : a1 = a2 then .isTrue (by rw [h]) else .isFalse (fun hh => by cases hh; exact h rfl)

/-- The part of an HTTP response the loop inspects. -/
structure HttpResponse where
  status_code : Nat
  content : List Nat

/-- The two `RuntimeError`s of the image-download loop. -/
inductive FetchFail (ι : Type) where
  | badStatus : ι → Nat → FetchFail ι
  | emptyBody : ι → FetchFail ι
  deriving DecidableEq

/-- The error the loop raises for candidate `c` with response `r` (line 181
when the status is not 200, line 183 when the body is empty). -/
def fetchFailFor (c : ι) (r : HttpResponse) : FetchFail ι :=
  if r.status_code ≠ 200 then .badStatus c r.status_code else .emptyBody c

/-- Lines 176-184 of al.py.  `resp c` is the response of
`fetch_via_requests_session` for candidate `c`; `trace` accumulates (reversed)
the ids fetched so far and `acc` the collected `(c, r_img.content)` pairs. -/
def fetchImagesLoop (resp : ι → HttpResponse) (ids : List ι)
    (trace : List ι) (acc : List (ι × List Nat)) :
    List ι × Except (FetchFail ι) (List (ι × List Nat)) :=
  match ids with
  | [] => (trace.reverse, .ok acc.reverse)
  | c :: rest =>
    let r := resp c
    if r.status_code ≠ 200 then ((c :: trace).reverse, .error (.badStatus c r.status_code))
    else if r.content.isEmpty then ((c :: trace).reverse, .error (.emptyBody c))
    else fetchImagesLoop resp rest (c :: trace) ((c, r.content) :: acc)

/-- The image-download loop started with empty trace and accumulator.
First component: the ids fetched, in fetch order; second: the outcome. -/
def fetchImages (resp : ι → HttpResponse) (ids : List ι) :
    List ι × Except (FetchFail ι) (List (ι × List Nat)) :=
  fetchImagesLoop resp ids [] []

/-! ## Theorems -/

/-! ### Key transform: claims C4 and C5 -/

theorem keySwap_length (l : List Char) : (keySwap l).length = l.length := by
  simp [keySwap]

theorem keySwap_getElem? (l : List Char) (h : 16 < l.length) (n : Nat) :
    (keySwap l)[n]? = if n = 15 then l[16]? else if n = 16 then l[15]? else l[n]? := by
  have h15 : 15 < l.length := by omega
  simp only [keySwap, List.getD_eq_getElem?_getD, List.getElem?_set, List.length_set]
  by_cases h15' : n = 15
  · subst h15'
    simp [h, h15, List.getElem?_eq_getElem h]
  · by_cases h16 : n = 16
    · subst h16
      simp [h, List.getElem?_eq_getElem h15]
    · simp [h15', h16, Ne.symm h15', Ne.symm h16]

theorem keySwap_keySwap (l : List Char) (h : 16 < l.length) : keySwap (keySwap l) = l := by
  have hlen : (keySwap l).length = l.length := keySwap_length l
  have h' : 16 < (keySwap l).length := by omega
  apply List.ext_getElem?
  intro n
  rw [keySwap_getElem? _ h', keySwap_getElem? _ h, keySwap_getElem? _ h, keySwap_getElem? _ h]
  by_cases h15 : n = 15
  · simp [h15]
  · by_cases h16 : n = 16 <;> simp [h15, h16]

/-- Claim C4: the key transform (swap of the characters at 0-indexed positions
15 and 16, al.py lines 42-47) is self-inverse on every string of length
greater than 16: applying it twice yields the original string. -/
theorem keyTransform_self_inverse (x : List Char) (h : 16 < x.length) :
    ∃ y, keyTransform x = some y ∧ keyTransform y = some x := by
  refine ⟨keySwap x, ?_, ?_⟩
  · rw [keyTransform, if_neg (by omega)]
  · rw [keyTransform, if_neg (by rw [keySwap_length]; omega), keySwap_keySwap x h]

theorem keyTransform_self_inverse_witness :
    16 < ("0123456789abcdefg".toList).length ∧
      ∃ y, keyTransform ("0123456789abcdefg".toList) = some y ∧
        keyTransform y = some ("0123456789abcdefg".toList) :=
  ⟨by decide, keyTransform_self_inverse ("0123456789abcdefg".toList) (by decide)⟩

/-- Claim C5: on every string of length at most 16 the key transform fails
with the invalid-key error (al.py lines 44-45 raise `ValueError`, modelled as
`none`) and produces no transformed key. -/
theorem keyTransform_short_fails (x : List Char) (h : x.length ≤ 16) :
    keyTransform x = none := by
  rw [keyTransform, if_pos h]

theorem keyTransform_short_fails_witness :
    ("0123456789".toList).length ≤ 16 ∧ keyTransform ("0123456789".toList) = none :=
  ⟨by decide, keyTransform_short_fails ("0123456789".toList) (by decide)⟩

/-! ### ContainerDecoder post-processing: claim C1 -/

theorem cleaned_eq_filter (l : List Nat) :
    removeByte 0x08 (removeByte 0x00 l) = l.filter (fun b => b != 0x00 && b != 0x08) := by
  simp only [removeByte, List.filter_filter]
  exact List.filter_congr (fun x _ => Bool.and_comm _ _)

theorem dropWhile_all_iff (p : α → Bool) (l : List α) :
    (∀ x ∈ l.dropWhile p, p x = true) ↔ ∀ x ∈ l, p x = true := by
  constructor
  · intro hd x hx
    have hsplit := List.takeWhile_append_dropWhile p l
    rw [← hsplit] at hx
    rcases List.mem_append.mp hx with htw | hdw
    · exact List.mem_takeWhile_imp htw
    · exact hd x hdw
  · intro hall x hx
    exact hall x (List.Sublist.mem hx (List.dropWhile_sublist p))

theorem pyStrip_eq_nil_iff (l : List Nat) :
    pyStrip l = [] ↔ l.all pyWhitespace = true := by
  rw [pyStrip, List.reverse_eq_nil_iff, List.dropWhile_eq_nil_iff, List.all_eq_true]
  constructor
  · intro hrev x hx
    have := (dropWhile_all_iff pyWhitespace l).mp
      (fun z hz => hrev z (List.mem_reverse.mpr hz))
    exact this x hx
  · intro hall x hx
    exact hall x (List.Sublist.mem (List.mem_reverse.mp hx) (List.dropWhile_sublist _))

theorem keep_line_eq (line : List Nat) :
    (!(pyStrip line).isEmpty) = !(line.isEmpty || line.all pyWhitespace) := by
  congr 1
  rw [Bool.eq_iff_iff, List.isEmpty_iff, pyStrip_eq_nil_iff, Bool.or_eq_true,
    List.isEmpty_iff]
  constructor
  · intro hall
    exact Or.inr hall
  · rintro (hnil | hall)
    · subst hnil; rfl
    · exact hall

/-- Counterexample to claim C1: on the decrypted buffer `[0x61, 0x0D, 0x62]`
(the text `"a\x0db"`), the code's `str.splitlines()` splits at the lone CR
and returns the two lines `"a"` and `"b"`, while the claim's splitting on
CRLF-or-LF boundaries only would return the single line `"a\x0db"`. -/
theorem decryptPost_ne_specPost :
    decryptPost [0x61, 0x0D, 0x62] = some [[0x61], [0x62]] ∧
    specPost [0x61, 0x0D, 0x62] = some [[0x61, 0x0D, 0x62]] ∧
    decryptPost [0x61, 0x0D, 0x62] ≠ specPost [0x61, 0x0D, 0x62] := by
  refine ⟨by decide, by decide, by decide⟩

/-- Claim C1, amended at the line-splitting step: for every decrypted byte
buffer, `CNL.decrypt`'s post-processing (al.py lines 83-92) removes every
occurrence of bytes `0x00` and `0x08` anywhere in the buffer, decodes the
remaining bytes as UTF-8, splits the text at every Python `str.splitlines`
line boundary (LF, CR, CRLF, and the further boundary code points 0x0B, 0x0C,
0x1C, 0x1D, 0x1E, 0x85, 0x2028, 0x2029 — not only CRLF/LF), discards lines
that are empty or contain only whitespace, and returns the remaining lines in
their order of appearance. -/
theorem decryptPost_eq_specPostAmended (raw : List Nat) :
    decryptPost raw = specPostAmended raw := by
  rw [decryptPost, specPostAmended, cleaned_eq_filter]
  cases hdec : utf8Decode (raw.filter (fun b => b != 0x00 && b != 0x08)) with
  | none => rfl
  | some text =>
    simp only
    congr 1
    exact List.filter_congr (fun line _ => keep_line_eq line)

/-! ### BatchDecryptor filtering: claim C6 -/

/-- Claim C6: when a mirror filter is provided (a truthy string, per the
`if mirror:` tests at al.py lines 103-113), exactly the items whose hoster
label contains it as a case-sensitive substring are kept; when that filter
matches zero items the full unfiltered item list is processed instead and
the fallback diagnostic (line 109) is recorded; when the filter is absent
the full item list is processed with no fallback diagnostic. -/
theorem decrypt_content_filtering (items : List ContentItem) (m : List Char) (hm : m ≠ []) :
    (items.filter (fun it => listContainsSub m (it.hoster.getD [])) ≠ [] →
      filterContent items (some m) =
        (items.filter (fun it => listContainsSub m (it.hoster.getD [])), false)) ∧
    (items.filter (fun it => listContainsSub m (it.hoster.getD [])) = [] →
      filterContent items (some m) = (items, true)) ∧
    filterContent items none = (items, false) := by
  have htruthy : optStrTruthy (some m) = true := by
    rw [optStrTruthy]
    cases m with
    | nil => exact absurd rfl hm
    | cons c cs => rfl
  refine ⟨?_, ?_, ?_⟩
  · intro hne
    rw [filterContent]
    simp only [htruthy, if_pos, Option.getD_some, Bool.true_and, Bool.not_true,
      Bool.false_eq_true, if_false, if_true]
    have hne' : (items.filter (fun it => listContainsSub m (it.hoster.getD []))).isEmpty
        = false := by
      cases hfe : (items.filter (fun it => listContainsSub m (it.hoster.getD []))).isEmpty with
      | false => rfl
      | true => exact absurd (List.isEmpty_iff.mp hfe) hne
    rw [hne']
    simp
  · intro heq
    rw [filterContent]
    simp only [htruthy, Option.getD_some, Bool.true_and, Bool.not_true,
      Bool.false_eq_true, if_false, if_true, heq]
    simp [heq]
  · rw [filterContent]
    simp [optStrTruthy]

theorem decrypt_content_filtering_witness :
    (['Z'] : List Char) ≠ [] ∧
      filterContent [⟨some ['X'], none⟩, ⟨some ['Y'], none⟩] (some ['Z']) =
        ([⟨some ['X'], none⟩, ⟨some ['Y'], none⟩], true) :=
  ⟨by decide,
    (decrypt_content_filtering [⟨some ['X'], none⟩, ⟨some ['Y'], none⟩] ['Z']
      (by decide)).2.1 (by decide)⟩

/-! ### BatchDecryptor fault isolation: claim C3 -/

theorem decryptLoopAux_urls (dec : ContentItem → Except ε (List (List Char))) :
    ∀ (items : List ContentItem) (n : Nat),
      (decryptLoopAux dec (List.enumFrom n items)).1 =
        (items.map (itemSuccessUrls dec)).flatten := by
  intro items
  induction items with
  | nil => intro n; rfl
  | cons item rest ih =>
    intro n
    rw [List.enumFrom_cons, List.map_cons, List.flatten_cons]
    rw [decryptLoopAux]
    rw [itemSuccessUrls]
    cases hf : fieldsPresent item with
    | false =>
      simp only [hf, Bool.not_false, if_true, Bool.false_eq_true, if_false]
      rw [ih (n + 1)]
      rfl
    | true =>
      simp only [hf, Bool.not_true, Bool.false_eq_true, if_false, if_true]
      cases hdec : dec item with
      | ok urls => rw [ih (n + 1)]
      | error e =>
        rw [ih (n + 1)]
        rfl

theorem decryptLoopAux_diag (dec : ContentItem → Except ε (List (List Char))) :
    ∀ (items : List ContentItem) (n i : Nat) (h : i < items.length) (e : ε),
      fieldsPresent items[i] = true → dec items[i] = .error e →
      ItemDiag.decryptFailed (n + i) (items[i].hoster.getD ("<unknown>".toList)) e ∈
        (decryptLoopAux dec (List.enumFrom n items)).2 := by
  intro items
  induction items with
  | nil => intro n i h; exact absurd h (by simp)
  | cons item rest ih =>
    intro n i h e hf hdec
    rw [List.enumFrom_cons, decryptLoopAux]
    cases i with
    | zero =>
      rw [List.getElem_cons_zero] at hf hdec
      simp only [hf, Bool.not_true, Bool.false_eq_true, if_false, hdec]
      rw [List.getElem_cons_zero]
      exact List.mem_cons_self _ _
    | succ k =>
      rw [List.getElem_cons_succ] at hf hdec
      have hk : k < rest.length := by
        have := h; simp only [List.length_cons] at this; omega
      have hmem := ih (n + 1) k hk e hf hdec
      have harith : n + 1 + k = n + (k + 1) := by omega
      rw [harith] at hmem
      rw [List.getElem_cons_succ]
      cases hfi : fieldsPresent item with
      | false =>
        simp only [hfi, Bool.not_false, if_true]
        exact List.mem_cons_of_mem _ hmem
      | true =>
        simp only [hfi, Bool.not_true, Bool.false_eq_true, if_false]
        cases hdi : dec item with
        | ok urls => exact hmem
        | error e2 => exact List.mem_cons_of_mem _ hmem

/-- Claim C3: the per-item loop of `decrypt_content` (al.py lines 115-136)
isolates faults: the decryptor `dec` (modelling `CNL(item).decrypt()`) may
fail on any item, the loop never propagates the failure, the returned URL
list is the concatenation, in item order, of the URL lists of the items that
decrypted successfully, and every item whose decryption failed contributes a
diagnostic carrying its index and hoster label. -/
theorem decrypt_content_fault_isolation (dec : ContentItem → Except ε (List (List Char)))
    (items : List ContentItem) :
    (decryptItems dec items).1 = (items.map (itemSuccessUrls dec)).flatten ∧
    ∀ (i : Nat) (h : i < items.length) (e : ε),
      fieldsPresent items[i] = true → dec items[i] = .error e →
      ItemDiag.decryptFailed i (items[i].hoster.getD ("<unknown>".toList)) e ∈
        (decryptItems dec items).2 := by
  constructor
  · rw [decryptItems, List.enum_eq_enumFrom]
    exact decryptLoopAux_urls dec items 0
  · intro i h e hf hdec
    rw [decryptItems, List.enum_eq_enumFrom]
    have := decryptLoopAux_diag dec items 0 i h e hf hdec
    rwa [Nat.zero_add] at this

theorem decrypt_content_fault_isolation_witness :
    (decryptItems (fun it => if it.hoster == some ['X'] then .error () else .ok [['u']])
        [⟨some ['A'], some ⟨some ['j'], some ['c']⟩⟩,
         ⟨some ['X'], some ⟨some ['j'], some ['c']⟩⟩,
         ⟨some ['B'], some ⟨some ['j'], some ['c']⟩⟩]).1 = [['u'], ['u']] ∧
    ItemDiag.decryptFailed 1 ['X'] () ∈
      (decryptItems (fun it => if it.hoster == some ['X'] then .error () else .ok [['u']])
        [⟨some ['A'], some ⟨some ['j'], some ['c']⟩⟩,
         ⟨some ['X'], some ⟨some ['j'], some ['c']⟩⟩,
         ⟨some ['B'], some ⟨some ['j'], some ['c']⟩⟩]).2 := by
  constructor
  · exact ((decrypt_content_fault_isolation
      (fun it => if it.hoster == some ['X'] then .error () else .ok [['u']])
      [⟨some ['A'], some ⟨some ['j'], some ['c']⟩⟩,
       ⟨some ['X'], some ⟨some ['j'], some ['c']⟩⟩,
       ⟨some ['B'], some ⟨some ['j'], some ['c']⟩⟩]).1).trans (by decide)
  · have hd := (decrypt_content_fault_isolation
      (fun it => if it.hoster == some ['X'] then .error () else .ok [['u']])
      [⟨some ['A'], some ⟨some ['j'], some ['c']⟩⟩,
       ⟨some ['X'], some ⟨some ['j'], some ['c']⟩⟩,
       ⟨some ['B'], some ⟨some ['j'], some ['c']⟩⟩]).2 1 (by decide) () (by decide) (by decide)
    exact hd

/-! ### Captcha image fetching: claim C8 -/

theorem fetchImagesLoop_fail (resp : ι → HttpResponse) (c : ι) (post : List ι)
    (hc : (resp c).status_code ≠ 200 ∨ (resp c).content = []) :
    ∀ (pre : List ι) (trace : List ι) (acc : List (ι × List Nat)),
      (∀ d ∈ pre, (resp d).status_code = 200 ∧ (resp d).content ≠ []) →
      fetchImagesLoop resp (pre ++ c :: post) trace acc =
        (trace.reverse ++ pre ++ [c], .error (fetchFailFor c (resp c))) := by
  intro pre
  induction pre with
  | nil =>
    intro trace acc _
    rw [List.nil_append, fetchImagesLoop]
    rcases Decidable.em ((resp c).status_code = 200) with h200 | h200
    · have hempty : (resp c).content = [] := by
        rcases hc with hbad | hempty
        · exact absurd h200 hbad
        · exact hempty
      rw [if_neg (by simp [h200]), if_pos (by rw [hempty]; rfl)]
      rw [fetchFailFor, if_neg (by simp [h200])]
      simp
    · rw [if_pos h200, fetchFailFor, if_pos h200]
      simp
  | cons d pre' ih =>
    intro trace acc hpre
    have hd := hpre d (List.mem_cons_self _ _)
    rw [List.cons_append, fetchImagesLoop]
    rw [if_neg (by simp [hd.1]),
      if_neg (fun hh => hd.2 (List.isEmpty_iff.mp hh))]
    rw [ih (d :: trace) ((d, (resp d).content) :: acc)
      (fun x hx => hpre x (List.mem_cons_of_mem _ hx))]
    rw [List.reverse_cons]
    simp [List.append_assoc]

/-- Claim C8: the captcha image-download loop (al.py lines 176-184) fetches
the candidate images one at a time in candidate order, and as soon as one
candidate's response has a non-200 status or an empty body the whole
resolution fails with that candidate's error: the fetch trace ends at the
failing candidate and none of the remaining candidates is fetched. -/
theorem fetch_fail_fast (resp : ι → HttpResponse) (pre : List ι) (c : ι) (post : List ι)
    (hpre : ∀ d ∈ pre, (resp d).status_code = 200 ∧ (resp d).content ≠ [])
    (hc : (resp c).status_code ≠ 200 ∨ (resp c).content = []) :
    fetchImages resp (pre ++ c :: post) =
      (pre ++ [c], .error (fetchFailFor c (resp c))) := by
  rw [fetchImages, fetchImagesLoop_fail resp c post hc pre [] [] hpre]
  rfl

theorem fetch_fail_fast_witness :
    fetchImages (fun n => if n == 2 then ⟨404, [1]⟩ else ⟨200, [1]⟩) ([1] ++ 2 :: [3]) =
      ([1, 2], .error (.badStatus 2 404)) :=
  (fetch_fail_fast (fun n => if n == 2 then ⟨404, [1]⟩ else ⟨200, [1]⟩) [1] 2 [3]
    (by decide) (by decide)).trans (by decide)

/-! ### Pixel difference: claims C7 and C10 -/

/-- Claim C7: `calculate_pixel_based_difference` (al.py lines 139-152) is
symmetric on every pair of normalized images of identical dimensions, and is
a pure function of its two image arguments (in this embedding it is a plain
function of them, with no other state). -/
theorem pixel_difference_symmetric (a b : NormImage)
    (hw : a.width = b.width) (hh : a.height = b.height) :
    calculate_pixel_based_difference a b = calculate_pixel_based_difference b a := by
  have hdiff : imageDiffAbs a b = imageDiffAbs b a := by
    rw [imageDiffAbs, imageDiffAbs, if_pos ⟨hw, hh⟩, if_pos ⟨hw.symm, hh.symm⟩]
    rw [Option.some.injEq]
    rw [show (⟨a.width, a.height, fun x y c =>
          max (a.px x y c) (b.px x y c) - min (a.px x y c) (b.px x y c)⟩ : NormImage) =
        ⟨b.width, b.height, fun x y c =>
          max (a.px x y c) (b.px x y c) - min (a.px x y c) (b.px x y c)⟩ from by
      rw [hw, hh]]
    congr 1
    funext x y c
    rw [Nat.max_comm, Nat.min_comm]
  rw [calculate_pixel_based_difference, calculate_pixel_based_difference, hdiff]

theorem pixel_difference_symmetric_witness :
    calculate_pixel_based_difference ⟨1, 1, fun _ _ _ => 5⟩ ⟨1, 1, fun _ _ _ => 7⟩ =
      calculate_pixel_based_difference ⟨1, 1, fun _ _ _ => 7⟩ ⟨1, 1, fun _ _ _ => 5⟩ :=
  pixel_difference_symmetric ⟨1, 1, fun _ _ _ => 5⟩ ⟨1, 1, fun _ _ _ => 7⟩ rfl rfl

theorem histZeroAt_le (d : NormImage) (c : Fin 3) :
    histZeroAt d c ≤ d.width * d.height := by
  rw [histZeroAt]
  calc ((List.range d.width).map (fun x =>
        ((List.range d.height).filter (fun y => d.px x y c == 0)).length)).sum
      ≤ ((List.range d.width).map (fun _ => d.height)).sum := by
        apply List.sum_le_sum
        intro x _
        calc ((List.range d.height).filter (fun y => d.px x y c == 0)).length
            ≤ (List.range d.height).length := List.length_filter_le _ _
          _ = d.height := List.length_range d.height
    _ = d.width * d.height := by
        rw [List.map_const', List.sum_replicate, List.length_range, smul_eq_mul]

/-- Claim C10: the pixel-difference computation divides by
`width * height * 3` with no guard; on every pair of same-dimension images
with at least one pixel the division is defined and the result lies in
`[0, 100]`, while on zero-area images the computation fails with a
division-by-zero error (modelled as `none`) instead of returning a value. -/
theorem pixel_difference_range (a b : NormImage)
    (hw : a.width = b.width) (hh : a.height = b.height) :
    (0 < a.width * a.height →
      ∃ q : ℚ, calculate_pixel_based_difference a b = some q ∧ 0 ≤ q ∧ q ≤ 100) ∧
    (a.width * a.height = 0 → calculate_pixel_based_difference a b = none) := by
  rw [calculate_pixel_based_difference, imageDiffAbs, if_pos ⟨hw, hh⟩]
  simp only
  constructor
  · intro hpos
    have htot : a.width * a.height * 3 ≠ 0 := by positivity
    rw [if_neg htot]
    set d : NormImage := ⟨a.width, a.height, fun x y c =>
      max (a.px x y c) (b.px x y c) - min (a.px x y c) (b.px x y c)⟩ with hd
    set z := histZeroAt d 0 + histZeroAt d 1 + histZeroAt d 2 with hz
    refine ⟨_, rfl, ?_, ?_⟩
    · positivity
    · have hcast : ((a.width * a.height * 3 - z : Nat) : ℚ) ≤ ((a.width * a.height * 3 : Nat) : ℚ) := by
        exact_mod_cast Nat.sub_le _ _
      have htotpos : (0 : ℚ) < ((a.width * a.height * 3 : Nat) : ℚ) := by
        have : 0 < a.width * a.height * 3 := by positivity
        exact_mod_cast this
      rw [div_le_iff₀ htotpos]
      push_cast at hcast ⊢
      nlinarith
  · intro hzero
    rw [if_pos (by rw [hzero, Nat.zero_mul])]

theorem pixel_difference_range_witness :
    (∃ q : ℚ, calculate_pixel_based_difference ⟨1, 1, fun _ _ _ => 5⟩
        ⟨1, 1, fun _ _ c => if c = 0 then 7 else 5⟩ = some q ∧ 0 ≤ q ∧ q ≤ 100) ∧
    calculate_pixel_based_difference ⟨0, 2, fun _ _ _ => 5⟩ ⟨0, 2, fun _ _ _ => 9⟩ = none :=
  ⟨(pixel_difference_range ⟨1, 1, fun _ _ _ => 5⟩
      ⟨1, 1, fun _ _ c => if c = 0 then 7 else 5⟩ rfl rfl).1 (by decide),
    (pixel_difference_range ⟨0, 2, fun _ _ _ => 5⟩ ⟨0, 2, fun _ _ _ => 9⟩ rfl rfl).2 rfl⟩

/-! ### Outlier selection: claim C2 -/

theorem pyMaxAux_spec (ys : List (ι × ℚ)) : ∀ best : ι × ℚ,
    (∀ y ∈ best :: ys, y.2 ≤ (pyMaxAux best ys).2) ∧
    (pyMaxAux best ys = best ∨
      ∃ i, ∃ hi : i < ys.length, pyMaxAux best ys = ys[i] ∧ best.2 < ys[i].2 ∧
        ∀ j, ∀ hj : j < ys.length, j < i → ys[j].2 < ys[i].2) := by
  induction ys with
  | nil =>
    intro best
    refine ⟨?_, Or.inl rfl⟩
    intro y hy
    rcases List.mem_cons.mp hy with rfl | hy'
    · exact le_refl _
    · exact absurd hy' (List.not_mem_nil y)
  | cons y ys ih =>
    intro best
    by_cases hlt : best.2 < y.2
    · have h1 := ih y
      have hstep : pyMaxAux best (y :: ys) = pyMaxAux y ys := by
        rw [pyMaxAux, if_pos hlt]
      constructor
      · intro z hz
        rw [hstep]
        rcases List.mem_cons.mp hz with rfl | hz'
        · exact le_trans (le_of_lt hlt) (h1.1 y (List.mem_cons_self _ _))
        · exact h1.1 z hz'
      · rcases h1.2 with heq | ⟨i, hi, heq, hbest, hfirst⟩
        · refine Or.inr ⟨0, by simp, ?_, ?_, ?_⟩
          · rw [hstep, heq, List.getElem_cons_zero]
          · rw [List.getElem_cons_zero]; exact hlt
          · intro j hj hj0; omega
        · refine Or.inr ⟨i + 1, by simpa using Nat.succ_lt_succ hi, ?_, ?_, ?_⟩
          · rw [hstep, heq, List.getElem_cons_succ]
          · rw [List.getElem_cons_succ]
            exact lt_trans hlt hbest
          · intro j hj hji
            cases j with
            | zero =>
              rw [List.getElem_cons_zero, List.getElem_cons_succ]
              exact hbest
            | succ k =>
              rw [List.getElem_cons_succ, List.getElem_cons_succ]
              exact hfirst k (by simpa using Nat.lt_of_succ_lt_succ hj)
                (Nat.lt_of_succ_lt_succ hji)
    · have h1 := ih best
      have hstep : pyMaxAux best (y :: ys) = pyMaxAux best ys := by
        rw [pyMaxAux, if_neg hlt]
      constructor
      · intro z hz
        rw [hstep]
        rcases List.mem_cons.mp hz with rfl | hz'
        · exact h1.1 z (List.mem_cons_self _ _)
        · rcases List.mem_cons.mp hz' with rfl | hz2
          · exact le_trans (le_of_not_lt hlt) (h1.1 best (List.mem_cons_self _ _))
          · exact h1.1 z (List.mem_cons_of_mem _ hz2)
      · rcases h1.2 with heq | ⟨i, hi, heq, hbest, hfirst⟩
        · exact Or.inl (hstep.trans heq)
        · refine Or.inr ⟨i + 1, by simpa using Nat.succ_lt_succ hi, ?_, ?_, ?_⟩
          · rw [hstep, heq, List.getElem_cons_succ]
          · rw [List.getElem_cons_succ]
            exact hbest
          · intro j hj hji
            cases j with
            | zero =>
              rw [List.getElem_cons_zero, List.getElem_cons_succ]
              exact lt_of_le_of_lt (le_of_not_lt hlt) hbest
            | succ k =>
              rw [List.getElem_cons_succ, List.getElem_cons_succ]
              exact hfirst k (by simpa using Nat.lt_of_succ_lt_succ hj)
                (Nat.lt_of_succ_lt_succ hji)

theorem foldl_agg (diff : α → α → ℚ) (a : α) (i : Nat) :
    ∀ (l : List (Nat × (ι × α))) (t : ℚ),
      l.foldl (fun tot jq => if i = jq.1 then tot else tot + diff a jq.2.2) t =
      t + ((l.filter (fun jq => !(i == jq.1))).map (fun jq => diff a jq.2.2)).sum := by
  intro l
  induction l with
  | nil => intro t; simp
  | cons x xs ih =>
    intro t
    rw [List.foldl_cons, List.filter_cons]
    by_cases h : i = x.1
    · rw [if_pos h, if_neg (by simp [h]), ih t]
    · rw [if_neg h, if_pos (by simp [h]), List.map_cons, List.sum_cons, ih (t + diff a x.2.2)]
      ring

theorem aggFor_eq_spec (diff : α → α → ℚ) (cands : List (ι × α)) (i : Nat) (a : α) :
    aggFor diff cands i a = specAggScore diff cands i a := by
  rw [aggFor, specAggScore, foldl_agg, zero_add]

theorem buildDiffs_length (diff : α → α → ℚ) (cands : List (ι × α)) :
    (buildDiffs diff cands).length = cands.length := by
  rw [buildDiffs, List.length_map, List.enum_length]

theorem buildDiffs_getElem (diff : α → α → ℚ) (cands : List (ι × α))
    (j : Nat) (hj : j < cands.length) (hj' : j < (buildDiffs diff cands).length) :
    (buildDiffs diff cands)[j] = (cands[j].1, specAggScore diff cands j cands[j].2) := by
  simp only [buildDiffs] at hj' ⊢
  rw [List.getElem_map, List.getElem_enum, aggFor_eq_spec]

theorem pyMaxSnd_spec (l : List (ι × ℚ)) (hne : l ≠ []) :
    ∃ i, ∃ hi : i < l.length, pyMaxSnd l = some l[i] ∧
      (∀ j, ∀ hj : j < l.length, l[j].2 ≤ l[i].2) ∧
      (∀ j, ∀ hj : j < l.length, j < i → l[j].2 < l[i].2) := by
  cases l with
  | nil => exact absurd rfl hne
  | cons x xs =>
    have hmax := pyMaxAux_spec xs x
    rcases hmax.2 with heq | ⟨i0, hi0, heq, hbest, hfirst⟩
    · refine ⟨0, by simp only [List.length_cons]; omega, ?_, ?_, ?_⟩
      · rw [pyMaxSnd, heq, List.getElem_cons_zero]
      · intro j hj
        have hb := hmax.1 _ (List.getElem_mem hj)
        rw [heq] at hb
        rw [List.getElem_cons_zero]
        exact hb
      · intro j hj hj0; omega
    · have hi0' : i0 + 1 < (x :: xs).length := by
        simp only [List.length_cons]; omega
      refine ⟨i0 + 1, hi0', ?_, ?_, ?_⟩
      · rw [pyMaxSnd, heq, List.getElem_cons_succ]
      · intro j hj
        have hb := hmax.1 _ (List.getElem_mem hj)
        rw [heq] at hb
        rw [List.getElem_cons_succ]
        exact hb
      · intro j hj hji
        rw [List.getElem_cons_succ]
        cases j with
        | zero =>
          rw [List.getElem_cons_zero]
          exact hbest
        | succ k =>
          rw [List.getElem_cons_succ]
          exact hfirst k (by simp only [List.length_cons] at hj; omega) (by omega)

/-- Claim C2: for every sequence of at least 2 candidates, the loop at al.py
lines 206-213 assigns candidate `i` the aggregate score
`Σ diffPercent(i, j)` over `j ≠ i` (the `specAggScore` formula), and
`max(diffs_pil, key=lambda x: x[1])` at line 215 selects a candidate whose
aggregate score is maximal and which is the first candidate, in input order,
achieving that maximum.  The statement is generic in the pairwise difference
function `diff`. -/
theorem outlier_selection (diff : α → α → ℚ) (cands : List (ι × α))
    (h2 : 2 ≤ cands.length) :
    ∃ i, ∃ hi : i < cands.length,
      selectOutlier diff cands = some (cands[i].1, specAggScore diff cands i cands[i].2) ∧
      (∀ j, ∀ hj : j < cands.length,
        specAggScore diff cands j cands[j].2 ≤ specAggScore diff cands i cands[i].2) ∧
      (∀ j, ∀ hj : j < cands.length, j < i →
        specAggScore diff cands j cands[j].2 < specAggScore diff cands i cands[i].2) := by
  have hlen := buildDiffs_length diff cands
  have hne : buildDiffs diff cands ≠ [] := by
    intro h0
    rw [h0] at hlen
    simp only [List.length_nil] at hlen
    omega
  obtain ⟨i, hi, hsel, hmaxall, hfirst⟩ := pyMaxSnd_spec (buildDiffs diff cands) hne
  have hi' : i < cands.length := by omega
  refine ⟨i, hi', ?_, ?_, ?_⟩
  · rw [selectOutlier, hsel, buildDiffs_getElem diff cands i hi' hi]
  · intro j hj
    have hj' : j < (buildDiffs diff cands).length := by omega
    have hb := hmaxall j hj'
    rw [buildDiffs_getElem diff cands j hj hj',
      buildDiffs_getElem diff cands i hi' hi] at hb
    exact hb
  · intro j hj hji
    have hj' : j < (buildDiffs diff cands).length := by omega
    have hb := hfirst j hj' hji
    rw [buildDiffs_getElem diff cands j hj hj',
      buildDiffs_getElem diff cands i hi' hi] at hb
    exact hb

theorem outlier_selection_witness :
    2 ≤ ([((10:Nat), (0:Nat)), (11, 0), (12, 1)] : List (Nat × Nat)).length ∧
    ∃ i, ∃ hi : i < ([((10:Nat), (0:Nat)), (11, 0), (12, 1)] : List (Nat × Nat)).length,
      selectOutlier (fun a b => if a == b then 0 else 1)
          [((10:Nat), (0:Nat)), (11, 0), (12, 1)] =
        some (([((10:Nat), (0:Nat)), (11, 0), (12, 1)] : List (Nat × Nat))[i].1,
          specAggScore (fun a b => if a == b then 0 else 1)
            [((10:Nat), (0:Nat)), (11, 0), (12, 1)] i
            ([((10:Nat), (0:Nat)), (11, 0), (12, 1)] : List (Nat × Nat))[i].2) ∧
      (∀ j, ∀ hj : j < ([((10:Nat), (0:Nat)), (11, 0), (12, 1)] : List (Nat × Nat)).length,
        specAggScore (fun a b => if a == b then 0 else 1)
            [((10:Nat), (0:Nat)), (11, 0), (12, 1)] j
            ([((10:Nat), (0:Nat)), (11, 0), (12, 1)] : List (Nat × Nat))[j].2 ≤
          specAggScore (fun a b => if a == b then 0 else 1)
            [((10:Nat), (0:Nat)), (11, 0), (12, 1)] i
            ([((10:Nat), (0:Nat)), (11, 0), (12, 1)] : List (Nat × Nat))[i].2) ∧
      (∀ j, ∀ hj : j < ([((10:Nat), (0:Nat)), (11, 0), (12, 1)] : List (Nat × Nat)).length,
        j < i →
        specAggScore (fun a b => if a == b then 0 else 1)
            [((10:Nat), (0:Nat)), (11, 0), (12, 1)] j
            ([((10:Nat), (0:Nat)), (11, 0), (12, 1)] : List (Nat × Nat))[j].2 <
          specAggScore (fun a b => if a == b then 0 else 1)
            [((10:Nat), (0:Nat)), (11, 0), (12, 1)] i
            ([((10:Nat), (0:Nat)), (11, 0), (12, 1)] : List (Nat × Nat))[i].2) :=
  ⟨by decide, outlier_selection (fun a b => if a == b then 0 else 1)
    [((10:Nat), (0:Nat)), (11, 0), (12, 1)] (by decide)⟩

/-! ### Captcha resolution result: claim C9 -/

/-- Counterexample to claim C9: two successful resolutions whose selected
candidates have different aggregate difference scores (10 and 20) produce
identical return values of `solve_captcha` (al.py lines 227-230 return only
the response text and the selected id), so the returned value cannot contain
the aggregate score: no extraction function recovers the selected candidate's
score from the result. -/
theorem solve_captcha_result_no_score :
    solveSubmit (fun _ => ['o', 'k']) [((0:Nat), (0:ℚ)), (1, 10)] =
      solveSubmit (fun _ => ['o', 'k']) [((0:Nat), (0:ℚ)), (1, 20)] ∧
    pyMaxSnd [((0:Nat), (0:ℚ)), (1, 10)] = some (1, 10) ∧
    pyMaxSnd [((0:Nat), (0:ℚ)), (1, 20)] = some (1, 20) ∧
    (10 : ℚ) ≠ 20 ∧
    ¬ ∃ f : Option (SolveResult Nat) → ℚ,
        ∀ (diffs : List (Nat × ℚ)) (p : Nat × ℚ), pyMaxSnd diffs = some p →
          f (solveSubmit (fun _ => ['o', 'k']) diffs) = p.2 := by
  refine ⟨by decide, by decide, by decide, by decide, ?_⟩
  rintro ⟨f, hf⟩
  have h1 := hf [((0:Nat), (0:ℚ)), (1, 10)] (1, 10) (by decide)
  have h2 := hf [((0:Nat), (0:ℚ)), (1, 20)] (1, 20) (by decide)
  rw [show solveSubmit (fun _ => ['o', 'k']) [((0:Nat), (0:ℚ)), (1, 10)] =
      solveSubmit (fun _ => ['o', 'k']) [((0:Nat), (0:ℚ)), (1, 20)] from by decide] at h1
  rw [h1] at h2
  exact absurd h2 (by decide)

/-- Claim C9, amended: on every successful resolution the returned value of
`solve_captcha` contains the selected identifier and the raw server response
text passed through unchanged — and nothing else; the aggregate difference
score is not part of the returned value (it is only written, truncated to an
integer, to the diagnostic log at al.py lines 216-217). -/
theorem solve_captcha_result (submitResp : ι → List Char) (diffs : List (ι × ℚ))
    (p : ι × ℚ) (h : pyMaxSnd diffs = some p) :
    solveSubmit submitResp diffs = some ⟨submitResp p.1, p.1⟩ := by
  rw [solveSubmit, h]

theorem solve_captcha_result_witness :
    pyMaxSnd [((0:Nat), (0:ℚ)), (1, 10)] = some (1, 10) ∧
    solveSubmit (fun _ => ['o', 'k']) [((0:Nat), (0:ℚ)), (1, 10)] = some ⟨['o', 'k'], 1⟩ :=
  ⟨by decide, solve_captcha_result (fun _ => ['o', 'k'])
    [((0:Nat), (0:ℚ)), (1, 10)] (1, 10) (by decide)⟩

end Quasarr
